import Mathlib

/-!
Verification of the anime-name-game subsystem of the Tika_Bot repository
(src/cogs/anime_game.py), shallowly embedded in Lean 4.

Python strings are modelled as `List Char`, wall-clock times as `ℚ`,
Python dicts (which preserve insertion order) as association lists
`List (Nat × α)` with dict-update semantics, and Python sets as
duplicate-free lists in insertion order (set.add appends when absent).
The Unicode NFKD table applied by `unicodedata.normalize` lives outside
the repository, so it is passed as an abstract function parameter `nfkd`.
-/

namespace TikaBot

abbrev GuildId := Nat
abbrev UserId := Nat
abbrev ChannelId := Nat

/-! ## Text helpers (Python str methods used by the cog) -/

/-- Whitespace test used by Python str.strip and str.split. -/
def isWS (c : Char) : Bool := c = ' ' || c = '\t' || c = '\n' || c = '\r'

/-- Python str.strip: drop whitespace from both ends. -/
def pyStrip (l : List Char) : List Char := (l.dropWhile isWS).rdropWhile isWS

/-- Helper for Python str.split with no separator: accumulate the current word. -/
def splitWsAux : List Char → List Char → List (List Char)
  | [], acc => if acc = [] then [] else [acc.reverse]
  | c :: rest, acc =>
    if isWS c then
      if acc = [] then splitWsAux rest [] else acc.reverse :: splitWsAux rest []
    else splitWsAux rest (c :: acc)

/-- Python str.split with no separator: split on whitespace runs, dropping empties. -/
def pySplit (l : List Char) : List (List Char) := splitWsAux l []

/-- Python sep.join for sep a single space. -/
def joinSpace : List (List Char) → List Char
  | [] => []
  | [w] => w
  | w :: rest => w ++ ' ' :: joinSpace rest

/-- normalize_name (anime_game.py lines 90-98): collapse whitespace, lowercase,
then apply the unicodedata NFKD normalization, passed in as `nfkd`. -/
def normalize_name (nfkd : List Char → List Char) (name : List Char) : List Char :=
  nfkd ((joinSpace (pySplit (pyStrip name))).map Char.toLower)

/-- Python regex class backslash-w: alphanumeric or underscore. -/
def isWordChar (c : Char) : Bool := c.isAlphanum || c = '_'

/-- The cleaned name computed inside get_first_letter:
re.sub of non-word characters applied to name.lower(). -/
def cleanedName (name : List Char) : List Char :=
  (name.map Char.toLower).filter isWordChar

/-- get_first_letter (anime_game.py lines 100-109): first alphabetic character of
the cleaned name; falls back to the first cleaned character, else empty. -/
def get_first_letter (name : List Char) : List Char :=
  match (cleanedName name).find? (fun c => c.isAlpha) with
  | some c => [c]
  | none =>
    match cleanedName name with
    | [] => []
    | c :: _ => [c]

/-- content.startswith of a slash or a double bang (anime_game.py line 485). -/
def isCommandCall : List Char → Bool
  | '/' :: _ => true
  | '!' :: '!' :: _ => true
  | _ => false

/-! ## Scorer -/

/-- calculate_xp (anime_game.py lines 159-174): step function of response time. -/
def calculate_xp (time_taken : ℚ) : Int :=
  if time_taken ≤ 10 then 3000
  else if time_taken ≤ 20 then 2000
  else if time_taken ≤ 30 then 1500
  else if time_taken ≤ 60 then 1000
  else if time_taken ≤ 300 then 500
  else if time_taken ≤ 1800 then 200
  else 50

/-! ## Verification gateway (AniList) -/

/-- A character record returned by the AniList GraphQL endpoint. -/
structure Character where
  id : Nat
deriving DecidableEq, Repr

/-- The object stored under the data key of an AniList response body;
its Character field may be null. -/
structure AnilistData where
  character : Option Character
deriving DecidableEq, Repr

/-- A parsed AniList response body; the data key may be absent. -/
structure AnilistBody where
  data : Option AnilistData
deriving DecidableEq, Repr

/-- One network interaction as seen by search_anilist_character:
a timeout, a transport-level error, or an HTTP response whose body may
fail to parse as JSON (`none`). -/
inductive ApiResponse where
  | timeout
  | transportError
  | response (status : Nat) (body : Option AnilistBody)
deriving DecidableEq, Repr

/-- The ClientTimeout total passed to the AniList request (line 148). -/
def anilistTimeoutSeconds : Nat := 10

/-- How search_anilist_character turns the single network interaction into a
result: status 200 with a parsed body yields the Character field of the data
key; every other case (timeout, transport error, unparsable body, non-200
status) yields none, the not-found signal. -/
def handle_anilist_response : ApiResponse → Option Character
  | ApiResponse.timeout => none
  | ApiResponse.transportError => none
  | ApiResponse.response status body =>
    if status = 200 then
      match body with
      | none => none
      | some b =>
        match b.data with
        | none => none
        | some d => d.character
    else none

/-- search_anilist_character (anime_game.py lines 117-157). The network is an
oracle assigning a response to each request issued; the function performs a
single POST (request 0) and reports the number of requests it made. -/
def search_anilist_character (net : Nat → ApiResponse) : Option Character × Nat :=
  (handle_anilist_response (net 0), 1)

/-! ## Association-list model of Python dicts -/

/-- Python dict lookup. -/
def dictFind {α : Type} (k : Nat) : List (Nat × α) → Option α
  | [] => none
  | (k', v) :: rest => if k' = k then some v else dictFind k rest

/-- Python dict assignment: update in place if the key exists (keeping its
insertion position), otherwise append at the end. -/
def dictSet {α : Type} (k : Nat) (v : α) : List (Nat × α) → List (Nat × α)
  | [] => [(k, v)]
  | (k', v') :: rest => if k' = k then (k, v) :: rest else (k', v') :: dictSet k v rest

/-- Apply a function to the value at key `k` if present (models mutating the
object stored in the dict, for example set.add or dict.clear). -/
def dictMapAt {α : Type} (k : Nat) (f : α → α) : List (Nat × α) → List (Nat × α)
  | [] => []
  | (k', v) :: rest => if k' = k then (k', f v) :: rest else (k', v) :: dictMapAt k f rest

/-- Python set.add on the insertion-ordered list model of a set. -/
def setAdd {α : Type} [DecidableEq α] (x : α) (s : List α) : List α :=
  if x ∈ s then s else s ++ [x]

/-- Python set applied to a list: drop duplicates keeping first occurrences. -/
def pySetOfList {α : Type} [DecidableEq α] (l : List α) : List α :=
  l.foldl (fun s x => setAdd x s) []

/-! ## Game state (the four per-guild dicts of the AnimeNameGame cog) -/

/-- The value stored in current_letters by send_new_letter (lines 202-207). -/
structure ChallengeData where
  letter : List Char
  timestamp : ℚ
  message_id : Nat
  active : Bool
deriving DecidableEq, Repr

/-- The four instance dicts of the cog (lines 16-19).  A current_letters value
of none models the empty challenge dict left by dict.clear. -/
structure CogState where
  game_channels : List (GuildId × ChannelId)
  used_names : List (GuildId × List (List Char))
  user_scores : List (GuildId × List (UserId × Int))
  current_letters : List (GuildId × Option ChallengeData)
deriving DecidableEq

/-- The used-name set of a guild (an absent key reads as the empty set). -/
def namesOf (st : CogState) (g : GuildId) : List (List Char) :=
  (dictFind g st.used_names).getD []

/-- The score dict of a guild (an absent key reads as the empty dict). -/
def scoresOf (st : CogState) (g : GuildId) : List (UserId × Int) :=
  (dictFind g st.user_scores).getD []

/-- The challenge of a guild (an absent key reads as the empty dict). -/
def challengeOf (st : CogState) (g : GuildId) : Option ChallengeData :=
  (dictFind g st.current_letters).getD none

/-- The guild initialization block of on_message (lines 474-480). -/
def initGuild (g : GuildId) (st : CogState) : CogState :=
  { st with
    used_names :=
      if (dictFind g st.used_names).isSome then st.used_names
      else dictSet g [] st.used_names,
    user_scores :=
      if (dictFind g st.user_scores).isSome then st.user_scores
      else dictSet g [] st.user_scores,
    current_letters :=
      if (dictFind g st.current_letters).isSome then st.current_letters
      else dictSet g none st.current_letters }

/-- send_new_letter (lines 176-209): store a fresh active challenge for the
guild.  The drawn letter, the clock reading and the posted message id are
inputs of the model. -/
def send_new_letter (st : CogState) (g : GuildId) (letter : List Char)
    (now : ℚ) (mid : Nat) : CogState :=
  { st with current_letters :=
      dictSet g (some ⟨letter, now, mid, true⟩) st.current_letters }

/-- set_channel (lines 252-267): lazily create the guild records, then bind
the channel.  (The first letter challenge it then posts is a separate
send_new_letter step.) -/
def set_channel (st : CogState) (g : GuildId) (cid : ChannelId) : CogState :=
  if (dictFind g st.game_channels).isSome then
    { st with game_channels := dictSet g cid st.game_channels }
  else
    { game_channels := dictSet g cid st.game_channels,
      used_names := dictSet g [] st.used_names,
      user_scores := dictSet g [] st.user_scores,
      current_letters := dictSet g none st.current_letters }

/-- reset_game (lines 405-458): on confirmation clear the three guild records
that exist, then re-open a fresh challenge when the guild has a bound game
channel that the client can resolve (channelFound). -/
def reset_game (st : CogState) (g : GuildId) (confirmed : Bool)
    (channelFound : Bool) (letter : List Char) (now : ℚ) (mid : Nat) : CogState :=
  if confirmed then
    let st1 : CogState :=
      { st with
        used_names := dictMapAt g (fun _ => ([] : List (List Char))) st.used_names,
        user_scores := dictMapAt g (fun _ => ([] : List (UserId × Int))) st.user_scores,
        current_letters := dictMapAt g (fun _ => (none : Option ChallengeData)) st.current_letters }
    if (dictFind g st1.game_channels).isSome && channelFound then
      send_new_letter st1 g letter now mid
    else st1
  else st

/-- The user-visible result of one on_message event. -/
inductive Outcome where
  | ignored
  | rejectedDuplicate
  | rejectedWrongLetter (expected got : List Char)
  | rejectedNotVerified
  | accepted (xp : Int)
deriving DecidableEq, Repr

/-- Result of one on_message event: the new state, the outcome, and whether
the external AniList lookup was performed. -/
structure MsgResult where
  state : CogState
  outcome : Outcome
  lookupPerformed : Bool
deriving DecidableEq

/-- on_message (lines 460-593).  The AniList gateway result for each query is
the oracle `anilist`; `now` is the time.time reading taken after
verification. -/
def on_message (nfkd : List Char → List Char) (st : CogState) (isBot : Bool)
    (g : GuildId) (cid : ChannelId) (uid : UserId) (content : List Char)
    (anilist : List Char → Option Character) (now : ℚ) : MsgResult :=
  if isBot then ⟨st, Outcome.ignored, false⟩
  else if dictFind g st.game_channels ≠ some cid then ⟨st, Outcome.ignored, false⟩
  else
    let st1 := initGuild g st
    let character_name := pyStrip content
    if character_name = [] ∨ isCommandCall character_name then ⟨st1, Outcome.ignored, false⟩
    else
      match (dictFind g st1.current_letters).getD none with
      | none => ⟨st1, Outcome.ignored, false⟩
      | some ch =>
        if ch.active = false then ⟨st1, Outcome.ignored, false⟩
        else
          let required_letter := ch.letter
          let challenge_timestamp := ch.timestamp
          let normalized_name := normalize_name nfkd character_name
          if normalized_name ∈ (dictFind g st1.used_names).getD [] then
            ⟨st1, Outcome.rejectedDuplicate, false⟩
          else
            let first_letter := get_first_letter character_name
            if first_letter ≠ required_letter then
              ⟨st1, Outcome.rejectedWrongLetter required_letter first_letter, false⟩
            else
              match anilist character_name with
              | none => ⟨st1, Outcome.rejectedNotVerified, true⟩
              | some _ =>
                let time_taken := now - challenge_timestamp
                let xp_gained := calculate_xp time_taken
                let st2 := { st1 with
                  used_names := dictMapAt g (setAdd normalized_name) st1.used_names }
                let st3 := { st2 with
                  user_scores := dictMapAt g
                    (fun us => dictSet uid ((dictFind uid us).getD 0 + xp_gained) us)
                    st2.user_scores }
                let st4 := { st3 with
                  current_letters := dictMapAt g
                    (Option.map (fun c => { c with active := false }))
                    st3.current_letters }
                ⟨st4, Outcome.accepted xp_gained, true⟩

/-- The state-mutating events the cog processes between two submissions:
another message, a send_new_letter, or a set_channel command. -/
inductive GameStep where
  | msg (isBot : Bool) (g : GuildId) (cid : ChannelId) (uid : UserId)
      (content : List Char) (anilist : List Char → Option Character) (now : ℚ)
  | newLetter (g : GuildId) (letter : List Char) (now : ℚ) (mid : Nat)
  | bindChannel (g : GuildId) (cid : ChannelId)

/-- Apply one event to the cog state. -/
def applyStep (nfkd : List Char → List Char) (st : CogState) : GameStep → CogState
  | GameStep.msg isBot g cid uid content anilist now =>
    (on_message nfkd st isBot g cid uid content anilist now).state
  | GameStep.newLetter g letter now mid => send_new_letter st g letter now mid
  | GameStep.bindChannel g cid => set_channel st g cid

/-! ## Persistence (save_data / load_data, lines 35-88) -/

/-- Decimal digit character, for Python str of a nonnegative int. -/
def digitChar : Nat → Char
  | 0 => '0'
  | 1 => '1'
  | 2 => '2'
  | 3 => '3'
  | 4 => '4'
  | 5 => '5'
  | 6 => '6'
  | 7 => '7'
  | 8 => '8'
  | _ => '9'

/-- Python str applied to a nonnegative int (guild and user ids). -/
def pyStr (n : Nat) : String :=
  if n = 0 then "0" else String.mk (((Nat.digits 10 n).map digitChar).reverse)

/-- Numeric value of a decimal digit character. -/
def digitVal (c : Char) : Nat := c.toNat - 48

/-- Python int applied to a string: parse a nonempty all-digit string,
fail (raise) otherwise. -/
def pyInt? (s : String) : Option Nat :=
  if s.data = [] then none
  else if s.data.all Char.isDigit then
    some (s.data.foldl (fun n c => n * 10 + digitVal c) 0)
  else none

/-- The JSON object built by save_data (lines 65-73): every dict key is
turned into a string and every used-name set into a list. -/
structure SavedData where
  game_channels : List (String × ChannelId)
  used_names : List (String × List (List Char))
  user_scores : List (String × List (String × Int))
  current_letters : List (String × Option ChallengeData)
deriving DecidableEq

/-- save_data (lines 62-88), data-shape part: stringify keys, set to list. -/
def save_data (st : CogState) : SavedData :=
  { game_channels := st.game_channels.map (fun p => (pyStr p.1, p.2)),
    used_names := st.used_names.map (fun p => (pyStr p.1, p.2)),
    user_scores := st.user_scores.map
      (fun p => (pyStr p.1, p.2.map (fun q => (pyStr q.1, q.2)))),
    current_letters := st.current_letters.map (fun p => (pyStr p.1, p.2)) }

/-- Key conversion performed by the dict comprehensions of load_data:
int applied to every key; any failure raises out of the whole load. -/
def decodeKeys {α : Type} (l : List (String × α)) : Option (List (Nat × α)) :=
  l.mapM (fun p => (pyInt? p.1).map (fun k => (k, p.2)))

/-- load_data (lines 35-60), data-shape part: parse keys back to ints,
rebuild each used-name set from its list; any parse failure fails the
whole load. -/
def load_data (d : SavedData) : Option CogState :=
  match decodeKeys d.game_channels, decodeKeys d.used_names,
      decodeKeys d.user_scores, decodeKeys d.current_letters with
  | some gc, some unRaw, some usRaw, some cl =>
    match usRaw.mapM (fun p => (decodeKeys p.2).map (fun inner => (p.1, inner))) with
    | some us => some ⟨gc, unRaw.map (fun p => (p.1, pySetOfList p.2)), us, cl⟩
    | none => none
  | _, _, _, _ => none

/-- The file-system-visible actions save_data can perform. -/
inductive PersistOp where
  | setEnv (name : String) (value : String)
  | openTruncate (path : String)
  | writeFile (path : String) (content : String)
  | renameFile (src : String) (dest : String)
deriving DecidableEq, Repr

/-- The durable store file used by save_data and load_data. -/
def durable_store_path : String := "anime_game_data.json"

/-- The sequence of persistence actions performed by one save_data call
(lines 75-85): set the env var, then open the store file itself in
truncating write mode and write the serialized state into it. -/
def save_data_ops (dataStr : String) : List PersistOp :=
  [PersistOp.setEnv "ANIME_GAME_DATA" dataStr,
   PersistOp.openTruncate durable_store_path,
   PersistOp.writeFile durable_store_path dataStr]

/-- True of a persistence-action trace that commits to the store only via
an atomic rename of a temporary file, never opening or writing the store
in place. -/
def atomicDurableWrite (ops : List PersistOp) (store : String) : Prop :=
  (∀ op ∈ ops, op ≠ PersistOp.openTruncate store ∧
    ∀ c, op ≠ PersistOp.writeFile store c) ∧
  (∃ src, PersistOp.renameFile src store ∈ ops)

/-- True of a persistence op that is a rename. -/
def PersistOp.isRename : PersistOp → Bool
  | PersistOp.renameFile _ _ => true
  | _ => false

/-! ## Leaderboard (lines 317-403) -/

/-- The sorted_users list computed by the leaderboard and stats commands:
Python sorted with key xp and reverse true, a stable descending sort. -/
def sorted_users (scores : List (UserId × Int)) : List (UserId × Int) :=
  scores.mergeSort (fun a b => decide (b.2 ≤ a.2))

/-- The rank computed by the stats command (line 392): one plus the index
of the user in sorted_users, or zero when absent. -/
def stats_rank (scores : List (UserId × Int)) (uid : UserId) : Nat :=
  match (sorted_users scores).findIdx? (fun p => p.1 == uid) with
  | some i => i + 1
  | none => 0

/-- total_pages of the leaderboard command (line 336), with per_page 10. -/
def leaderboard_total_pages (numPlayers : Nat) : Nat := (numPlayers + 10 - 1) / 10

/-- The page clamp of the leaderboard command (line 337). -/
def leaderboard_clamp_page (page : Int) (numPlayers : Nat) : Int :=
  max 1 (min page (leaderboard_total_pages numPlayers : Int))

/-! ## Small helper lemmas -/

theorem dictFind_dictSet_self {α : Type} (k : Nat) (v : α) (l : List (Nat × α)) :
    dictFind k (dictSet k v l) = some v := by
  induction l with
  | nil => simp [dictFind, dictSet]
  | cons p rest ih =>
    obtain ⟨k', v'⟩ := p
    by_cases h : k' = k <;> simp [dictFind, dictSet, h, ih]

theorem dictFind_dictSet_ne {α : Type} {k k' : Nat} (v : α) (l : List (Nat × α))
    (h : k' ≠ k) : dictFind k' (dictSet k v l) = dictFind k' l := by
  induction l with
  | nil => simp [dictFind, dictSet, Ne.symm h]
  | cons p rest ih =>
    obtain ⟨k'', v''⟩ := p
    by_cases h2 : k'' = k
    · subst h2
      simp [dictFind, dictSet, Ne.symm h]
    · by_cases h3 : k'' = k' <;> simp [dictFind, dictSet, h, Ne.symm h, h2, h3, ih]

theorem dictFind_dictMapAt_self {α : Type} (k : Nat) (f : α → α) (l : List (Nat × α)) :
    dictFind k (dictMapAt k f l) = (dictFind k l).map f := by
  induction l with
  | nil => simp [dictFind, dictMapAt]
  | cons p rest ih =>
    obtain ⟨k', v⟩ := p
    by_cases h : k' = k <;> simp [dictFind, dictMapAt, h, ih]

theorem dictFind_dictMapAt_ne {α : Type} {k k' : Nat} (f : α → α) (l : List (Nat × α))
    (h : k' ≠ k) : dictFind k' (dictMapAt k f l) = dictFind k' l := by
  induction l with
  | nil => simp [dictMapAt]
  | cons p rest ih =>
    obtain ⟨k'', v⟩ := p
    by_cases h2 : k'' = k
    · subst h2
      simp [dictFind, dictMapAt, Ne.symm h]
    · by_cases h3 : k'' = k' <;> simp [dictFind, dictMapAt, h, Ne.symm h, h2, h3, ih]

theorem mem_setAdd_self {α : Type} [DecidableEq α] (x : α) (s : List α) :
    x ∈ setAdd x s := by
  unfold setAdd
  split
  · assumption
  · simp

theorem mem_setAdd_of_mem {α : Type} [DecidableEq α] {x y : α} {s : List α}
    (h : x ∈ s) : x ∈ setAdd y s := by
  unfold setAdd
  split
  · exact h
  · simp [h]

theorem initGuild_game_channels (g : GuildId) (st : CogState) :
    (initGuild g st).game_channels = st.game_channels := rfl

theorem namesOf_initGuild (g g' : GuildId) (st : CogState) :
    namesOf (initGuild g st) g' = namesOf st g' := by
  unfold namesOf initGuild
  dsimp only
  by_cases h : (dictFind g st.used_names).isSome
  · simp [h]
  · rw [Option.not_isSome_iff_eq_none] at h
    rw [h, if_neg (by simp)]
    by_cases hg : g' = g
    · subst hg
      rw [dictFind_dictSet_self, h]
      rfl
    · rw [dictFind_dictSet_ne _ _ hg]

theorem scoresOf_initGuild (g g' : GuildId) (st : CogState) :
    scoresOf (initGuild g st) g' = scoresOf st g' := by
  unfold scoresOf initGuild
  dsimp only
  by_cases h : (dictFind g st.user_scores).isSome
  · simp [h]
  · rw [Option.not_isSome_iff_eq_none] at h
    rw [h, if_neg (by simp)]
    by_cases hg : g' = g
    · subst hg
      rw [dictFind_dictSet_self, h]
      rfl
    · rw [dictFind_dictSet_ne _ _ hg]

theorem challengeOf_initGuild (g g' : GuildId) (st : CogState) :
    challengeOf (initGuild g st) g' = challengeOf st g' := by
  unfold challengeOf initGuild
  dsimp only
  by_cases h : (dictFind g st.current_letters).isSome
  · simp [h]
  · rw [Option.not_isSome_iff_eq_none] at h
    rw [h, if_neg (by simp)]
    by_cases hg : g' = g
    · subst hg
      rw [dictFind_dictSet_self, h]
      rfl
    · rw [dictFind_dictSet_ne _ _ hg]

theorem initGuild_names_isSome (g : GuildId) (st : CogState) :
    (dictFind g (initGuild g st).used_names).isSome := by
  unfold initGuild
  by_cases h : (dictFind g st.used_names).isSome
  · simp [h]
  · simp [h, dictFind_dictSet_self]

/-! ## C2: the scorer is an inclusive-threshold step function, non-increasing -/

/-- C2: calculate_xp returns 3000 for t up to 10, 2000 for t up to 20, 1500 up
to 30, 1000 up to 60, 500 up to 300, 200 up to 1800, and the floor 50 above
1800, with every threshold inclusive; consequently it is monotonically
non-increasing in elapsed time. -/
theorem calculate_xp_tiers_and_monotone :
    (∀ t : ℚ,
      (t ≤ 10 → calculate_xp t = 3000) ∧
      (10 < t → t ≤ 20 → calculate_xp t = 2000) ∧
      (20 < t → t ≤ 30 → calculate_xp t = 1500) ∧
      (30 < t → t ≤ 60 → calculate_xp t = 1000) ∧
      (60 < t → t ≤ 300 → calculate_xp t = 500) ∧
      (300 < t → t ≤ 1800 → calculate_xp t = 200) ∧
      (1800 < t → calculate_xp t = 50)) ∧
    (∀ t1 t2 : ℚ, t1 ≤ t2 → calculate_xp t2 ≤ calculate_xp t1) := by
  constructor
  · intro t
    unfold calculate_xp
    refine ⟨?_, ?_, ?_, ?_, ?_, ?_, ?_⟩ <;> intros <;>
      split_ifs <;> first | rfl | linarith
  · intro t1 t2 h
    unfold calculate_xp
    split_ifs <;> first | rfl | linarith

/-- C2 witness: evaluate the tier equalities and monotonicity at boundary
inputs 10, 11 and at the pair 25 versus 2000. -/
theorem calculate_xp_tiers_and_monotone_witness :
    calculate_xp 10 = 3000 ∧ calculate_xp 11 = 2000 ∧
    calculate_xp 2000 ≤ calculate_xp 25 :=
  ⟨(calculate_xp_tiers_and_monotone.1 10).1 (by norm_num),
   (calculate_xp_tiers_and_monotone.1 11).2.1 (by norm_num) (by norm_num),
   calculate_xp_tiers_and_monotone.2 25 2000 (by norm_num)⟩

/-! ## C5: get_first_letter on names without alphabetic characters -/

/-- C5 counterexample: the digit-only name 123 contains no alphabetic
character, yet get_first_letter returns the digit 1, not the empty string. -/
theorem get_first_letter_digits_counterexample :
    ¬ (∀ name : List Char,
        (∀ c ∈ name, c.isAlpha = false) → get_first_letter name = []) := by
  intro h
  exact absurd (h ['1', '2', '3'] (by decide)) (by decide)

/-- C5 amended: get_first_letter returns the empty string exactly when the
cleaned name (lowercased, non-word characters removed) is empty; when the
cleaned name is nonempty but has no alphabetic character (digits or
underscores only), it returns the first cleaned character instead. -/
theorem get_first_letter_no_alpha :
    ∀ name : List Char,
      (cleanedName name = [] → get_first_letter name = []) ∧
      ((∀ c ∈ cleanedName name, c.isAlpha = false) →
        get_first_letter name = (cleanedName name).take 1) := by
  intro name
  constructor
  · intro h
    simp [get_first_letter, h]
  · intro h
    have hfind : (cleanedName name).find? (fun c => c.isAlpha) = none := by
      rw [List.find?_eq_none]
      intro x hx
      simp [h x hx]
    unfold get_first_letter
    rw [hfind]
    cases hc : cleanedName name <;> simp

/-- C5 amended witness: a punctuation-only name yields the empty string and a
digit-only name yields its first digit. -/
theorem get_first_letter_no_alpha_witness :
    get_first_letter ['?', '!'] = [] ∧
    get_first_letter ['1', '2', '3'] = (cleanedName ['1', '2', '3']).take 1 :=
  ⟨(get_first_letter_no_alpha ['?', '!']).1 (by decide),
   (get_first_letter_no_alpha ['1', '2', '3']).2 (by decide)⟩

/-! ## C6: save_data writes the durable store in place, not via atomic rename -/

/-- C6 counterexample: the persistence-action trace of save_data opens the
durable store file itself in truncating write mode, so it is not an atomic
temp-file-plus-rename commit. -/
theorem save_data_not_atomic :
    ¬ atomicDurableWrite (save_data_ops "\x7b\x7d") durable_store_path := by
  intro h
  exact absurd rfl
    (h.1 (PersistOp.openTruncate durable_store_path) (by simp [save_data_ops])).1

/-- C6 amended: every save_data call opens the durable store file itself in
truncating write mode and writes the serialized state directly into it, and
performs no rename at all; a crash between the truncating open and the
completed write can therefore corrupt previously-durable state (only the
in-process environment-variable copy, set first, survives). -/
theorem save_data_writes_store_in_place :
    ∀ s : String,
      PersistOp.openTruncate durable_store_path ∈ save_data_ops s ∧
      PersistOp.writeFile durable_store_path s ∈ save_data_ops s ∧
      (save_data_ops s).all (fun op => !op.isRename) = true := by
  intro s
  refine ⟨by simp [save_data_ops], by simp [save_data_ops], rfl⟩

/-! ## Pipeline lemmas about on_message -/

theorem on_message_game_channels (nfkd : List Char → List Char) (st : CogState)
    (isBot : Bool) (g : GuildId) (cid : ChannelId) (uid : UserId)
    (content : List Char) (anilist : List Char → Option Character) (now : ℚ) :
    (on_message nfkd st isBot g cid uid content anilist now).state.game_channels
      = st.game_channels := by
  unfold on_message
  dsimp only
  repeat' split
  all_goals rfl

theorem on_message_accepted_mem (nfkd : List Char → List Char) (st : CogState)
    (isBot : Bool) (g : GuildId) (cid : ChannelId) (uid : UserId)
    (content : List Char) (anilist : List Char → Option Character) (now : ℚ)
    (xp : Int) :
    (on_message nfkd st isBot g cid uid content anilist now).outcome
        = Outcome.accepted xp →
      isBot = false ∧ dictFind g st.game_channels = some cid ∧
      normalize_name nfkd (pyStrip content)
        ∈ namesOf (on_message nfkd st isBot g cid uid content anilist now).state g := by
  unfold on_message
  dsimp only
  repeat' split
  all_goals intro h
  all_goals try (exfalso; simp at h; done)
  refine ⟨by simp_all, by tauto, ?_⟩
  have hs := initGuild_names_isSome g st
  rw [Option.isSome_iff_exists] at hs
  obtain ⟨s, hs⟩ := hs
  simp only [namesOf, dictFind_dictMapAt_self, hs, Option.map_some', Option.getD_some]
  exact mem_setAdd_self _ _

theorem on_message_namesOf_mono (nfkd : List Char → List Char) (st : CogState)
    (isBot : Bool) (g : GuildId) (cid : ChannelId) (uid : UserId)
    (content : List Char) (anilist : List Char → Option Character) (now : ℚ)
    (g' : GuildId) (x : List Char) (hx : x ∈ namesOf st g') :
    x ∈ namesOf (on_message nfkd st isBot g cid uid content anilist now).state g' := by
  unfold on_message
  dsimp only
  repeat' split
  all_goals dsimp only
  all_goals try exact hx
  all_goals try (rw [namesOf_initGuild]; exact hx)
  by_cases hgg : g' = g
  · subst hgg
    have hx1 : x ∈ namesOf (initGuild g' st) g' := by
      rw [namesOf_initGuild]
      exact hx
    unfold namesOf at hx1 ⊢
    dsimp only
    rw [dictFind_dictMapAt_self]
    cases hfind : dictFind g' (initGuild g' st).used_names with
    | none =>
      rw [hfind] at hx1
      simp at hx1
    | some s =>
      rw [hfind] at hx1
      simp only [Option.map_some', Option.getD_some] at hx1 ⊢
      exact mem_setAdd_of_mem hx1
  · have h2 : namesOf (initGuild g st) g' = namesOf st g' := namesOf_initGuild g g' st
    unfold namesOf at h2 ⊢
    dsimp only
    rw [dictFind_dictMapAt_ne _ _ hgg, h2]
    exact hx

theorem on_message_oracle_none (nfkd : List Char → List Char) (st : CogState)
    (isBot : Bool) (g : GuildId) (cid : ChannelId) (uid : UserId)
    (content : List Char) (anilist : List Char → Option Character) (now : ℚ)
    (hor : anilist (pyStrip content) = none) :
    (∀ xp, (on_message nfkd st isBot g cid uid content anilist now).outcome
      ≠ Outcome.accepted xp) ∧
    ((on_message nfkd st isBot g cid uid content anilist now).lookupPerformed = true →
      (on_message nfkd st isBot g cid uid content anilist now).outcome
        = Outcome.rejectedNotVerified) ∧
    (∀ g', namesOf (on_message nfkd st isBot g cid uid content anilist now).state g'
        = namesOf st g' ∧
      scoresOf (on_message nfkd st isBot g cid uid content anilist now).state g'
        = scoresOf st g' ∧
      challengeOf (on_message nfkd st isBot g cid uid content anilist now).state g'
        = challengeOf st g') := by
  unfold on_message
  dsimp only
  repeat' split
  all_goals refine ⟨?_, ?_, ?_⟩
  all_goals first
    | (intro g'; exact ⟨rfl, rfl, rfl⟩)
    | (intro g'
       exact ⟨namesOf_initGuild g g' st, scoresOf_initGuild g g' st,
         challengeOf_initGuild g g' st⟩)
    | simp_all

theorem on_message_lookup_gates (nfkd : List Char → List Char) (st : CogState)
    (isBot : Bool) (g : GuildId) (cid : ChannelId) (uid : UserId)
    (content : List Char) (anilist : List Char → Option Character) (now : ℚ) :
    (on_message nfkd st isBot g cid uid content anilist now).lookupPerformed = true →
      isBot = false ∧ dictFind g st.game_channels = some cid ∧
      pyStrip content ≠ [] ∧ isCommandCall (pyStrip content) = false ∧
      ∃ ch, challengeOf st g = some ch ∧ ch.active = true ∧
        normalize_name nfkd (pyStrip content) ∉ namesOf st g ∧
        get_first_letter (pyStrip content) = ch.letter := by
  unfold on_message
  dsimp only
  repeat' split
  all_goals intro h
  all_goals try (exfalso; simp at h; done)
  · rename_i hBot hChan hEmpty xo ch hch hActive hDup hLetter xc hora
    refine ⟨by simpa using hBot, by tauto, by tauto,
      by simpa using (not_or.mp hEmpty).2, ch, ?_, ?_, ?_, ?_⟩
    · rw [← challengeOf_initGuild g g st]
      exact hch
    · simpa using hActive
    · rw [← namesOf_initGuild g g st]
      exact hDup
    · exact not_not.mp hLetter
  · rename_i hBot hChan hEmpty xo ch hch hActive hDup hLetter xc val hora
    refine ⟨by simpa using hBot, by tauto, by tauto,
      by simpa using (not_or.mp hEmpty).2, ch, ?_, ?_, ?_, ?_⟩
    · rw [← challengeOf_initGuild g g st]
      exact hch
    · simpa using hActive
    · rw [← namesOf_initGuild g g st]
      exact hDup
    · exact not_not.mp hLetter

theorem on_message_dup (nfkd : List Char → List Char) (st : CogState)
    (isBot : Bool) (g : GuildId) (cid : ChannelId) (uid : UserId)
    (content : List Char) (anilist : List Char → Option Character) (now : ℚ)
    (hmem : normalize_name nfkd (pyStrip content) ∈ namesOf st g) :
    (∀ xp, (on_message nfkd st isBot g cid uid content anilist now).outcome
      ≠ Outcome.accepted xp) ∧
    (isBot = false → dictFind g st.game_channels = some cid →
     pyStrip content ≠ [] → isCommandCall (pyStrip content) = false →
     ∀ ch, challengeOf st g = some ch → ch.active = true →
       (on_message nfkd st isBot g cid uid content anilist now).outcome
         = Outcome.rejectedDuplicate ∧
       (on_message nfkd st isBot g cid uid content anilist now).lookupPerformed
         = false) := by
  have hmem' : normalize_name nfkd (pyStrip content)
      ∈ (dictFind g (initGuild g st).used_names).getD [] := by
    rw [← namesOf_initGuild g g st] at hmem
    exact hmem
  have hchal : challengeOf st g
      = (dictFind g (initGuild g st).current_letters).getD none :=
    (challengeOf_initGuild g g st).symm
  unfold on_message
  dsimp only
  repeat' split
  all_goals refine ⟨by simp, ?_⟩
  all_goals intro hb hc hne hcmd ch hch hact
  all_goals first
    | exact ⟨rfl, rfl⟩
    | simp_all

theorem dropWhile_pyStrip (l : List Char) :
    (pyStrip l).dropWhile isWS = pyStrip l := by
  cases hps : pyStrip l with
  | nil => rfl
  | cons c cs =>
    have hpre : pyStrip l <+: l.dropWhile isWS := List.rdropWhile_prefix _ _
    rw [hps] at hpre
    obtain ⟨t, ht⟩ := hpre
    have hhead : (l.dropWhile isWS).head? = some c := by
      rw [← ht]
      rfl
    have hc : isWS c = false := by
      have h4 := List.head?_dropWhile_not isWS l
      rw [hhead] at h4
      exact h4
    simp [List.dropWhile_cons, hc]

theorem pyStrip_idem (l : List Char) : pyStrip (pyStrip l) = pyStrip l := by
  show ((pyStrip l).dropWhile isWS).rdropWhile isWS = pyStrip l
  rw [dropWhile_pyStrip]
  show ((l.dropWhile isWS).rdropWhile isWS).rdropWhile isWS = pyStrip l
  rw [List.rdropWhile_idempotent]
  rfl

theorem normalize_name_pyStrip (nfkd : List Char → List Char) (s : List Char) :
    normalize_name nfkd (pyStrip s) = normalize_name nfkd s := by
  unfold normalize_name
  rw [pyStrip_idem]

theorem applyStep_preserves (nfkd : List Char → List Char) (st : CogState)
    (s : GameStep) (g : GuildId) (x : List Char)
    (h1 : (dictFind g st.game_channels).isSome) (h2 : x ∈ namesOf st g) :
    (dictFind g (applyStep nfkd st s).game_channels).isSome ∧
    x ∈ namesOf (applyStep nfkd st s) g := by
  cases s with
  | msg isBot g0 cid uid content anilist now =>
    constructor
    · show (dictFind g (on_message nfkd st isBot g0 cid uid content
          anilist now).state.game_channels).isSome
      rw [on_message_game_channels]
      exact h1
    · exact on_message_namesOf_mono nfkd st isBot g0 cid uid content anilist now g x h2
  | newLetter g0 letter now mid => exact ⟨h1, h2⟩
  | bindChannel g0 cid =>
    show (dictFind g (set_channel st g0 cid).game_channels).isSome ∧
      x ∈ namesOf (set_channel st g0 cid) g
    unfold set_channel
    split
    · constructor
      · dsimp only
        by_cases hg : g = g0
        · subst hg
          rw [dictFind_dictSet_self]
          rfl
        · rw [dictFind_dictSet_ne _ _ hg]
          exact h1
      · exact h2
    · rename_i hnb
      have hgg : g ≠ g0 := by
        intro hh
        subst hh
        exact hnb h1
      constructor
      · dsimp only
        rw [dictFind_dictSet_ne _ _ hgg]
        exact h1
      · unfold namesOf at h2 ⊢
        dsimp only
        rw [dictFind_dictSet_ne _ _ hgg]
        exact h2

theorem foldl_applyStep_preserves (nfkd : List Char → List Char)
    (steps : List GameStep) (st : CogState) (g : GuildId) (x : List Char)
    (h1 : (dictFind g st.game_channels).isSome) (h2 : x ∈ namesOf st g) :
    (dictFind g (steps.foldl (applyStep nfkd) st).game_channels).isSome ∧
    x ∈ namesOf (steps.foldl (applyStep nfkd) st) g := by
  induction steps generalizing st with
  | nil => exact ⟨h1, h2⟩
  | cons s rest ih =>
    have h := applyStep_preserves nfkd st s g x h1 h2
    exact ih (applyStep nfkd st s) h.1 h.2

/-! ## C1: accepted names stay barred for the guild, up to normalization -/

/-- C1: if a submission N1 is accepted in a guild, then after any further
sequence of message, new-letter, or channel-binding events, a submission N2
with the same normalized form (same guild) is never accepted, and whenever it
reaches the duplicate check (game channel matching, nonempty non-command
text, an active challenge) it is rejected as a duplicate. -/
theorem duplicate_rejected_after_accept
    (nfkd : List Char → List Char) (st : CogState) (g : GuildId)
    (cid1 : ChannelId) (uid1 : UserId) (n1 : List Char)
    (a1 : List Char → Option Character) (t1 : ℚ) (xp : Int)
    (steps : List GameStep) (cid2 : ChannelId) (uid2 : UserId) (n2 : List Char)
    (a2 : List Char → Option Character) (t2 : ℚ)
    (hnorm : normalize_name nfkd n1 = normalize_name nfkd n2)
    (hacc : (on_message nfkd st false g cid1 uid1 n1 a1 t1).outcome
      = Outcome.accepted xp) :
    (∀ xp2,
      (on_message nfkd
          (steps.foldl (applyStep nfkd)
            (on_message nfkd st false g cid1 uid1 n1 a1 t1).state)
          false g cid2 uid2 n2 a2 t2).outcome ≠ Outcome.accepted xp2) ∧
    (dictFind g (steps.foldl (applyStep nfkd)
          (on_message nfkd st false g cid1 uid1 n1 a1 t1).state).game_channels
        = some cid2 →
      pyStrip n2 ≠ [] → isCommandCall (pyStrip n2) = false →
      ∀ ch, challengeOf (steps.foldl (applyStep nfkd)
          (on_message nfkd st false g cid1 uid1 n1 a1 t1).state) g = some ch →
        ch.active = true →
        (on_message nfkd
            (steps.foldl (applyStep nfkd)
              (on_message nfkd st false g cid1 uid1 n1 a1 t1).state)
            false g cid2 uid2 n2 a2 t2).outcome = Outcome.rejectedDuplicate) := by
  obtain ⟨-, hchan, hmem⟩ :=
    on_message_accepted_mem nfkd st false g cid1 uid1 n1 a1 t1 xp hacc
  have hbound : (dictFind g
      (on_message nfkd st false g cid1 uid1 n1 a1 t1).state.game_channels).isSome := by
    rw [on_message_game_channels, hchan]
    rfl
  have hfold := foldl_applyStep_preserves nfkd steps
    (on_message nfkd st false g cid1 uid1 n1 a1 t1).state g
    (normalize_name nfkd (pyStrip n1)) hbound hmem
  have hmem2 : normalize_name nfkd (pyStrip n2)
      ∈ namesOf (steps.foldl (applyStep nfkd)
        (on_message nfkd st false g cid1 uid1 n1 a1 t1).state) g := by
    have heq2 : normalize_name nfkd (pyStrip n1) = normalize_name nfkd (pyStrip n2) := by
      rw [normalize_name_pyStrip, normalize_name_pyStrip, hnorm]
    rw [← heq2]
    exact hfold.2
  have hd := on_message_dup nfkd
    (steps.foldl (applyStep nfkd)
      (on_message nfkd st false g cid1 uid1 n1 a1 t1).state)
    false g cid2 uid2 n2 a2 t2 hmem2
  exact ⟨hd.1, fun hc hne hcmd ch hch hact =>
    (hd.2 rfl hc hne hcmd ch hch hact).1⟩

/-- C1 witness: Asuna is accepted for letter a; after a fresh letter is
drawn, the case-and-whitespace variant ASUNA is rejected as a duplicate. -/
theorem duplicate_rejected_after_accept_witness :
    normalize_name id "Asuna".toList = normalize_name id " ASUNA  ".toList ∧
    (on_message id
        (CogState.mk [(1, 10)] [(1, [])] [(1, [])]
          [(1, some (ChallengeData.mk ['a'] 0 5 true))])
        false 1 10 2 "Asuna".toList (fun _ => some (Character.mk 7)) 5).outcome
      = Outcome.accepted (calculate_xp (5 - 0)) ∧
    (on_message id
        ([GameStep.newLetter 1 ['a'] 100 6].foldl (applyStep id)
          (on_message id
            (CogState.mk [(1, 10)] [(1, [])] [(1, [])]
              [(1, some (ChallengeData.mk ['a'] 0 5 true))])
            false 1 10 2 "Asuna".toList (fun _ => some (Character.mk 7)) 5).state)
        false 1 10 3 " ASUNA  ".toList (fun _ => some (Character.mk 7)) 105).outcome
      = Outcome.rejectedDuplicate := by
  refine ⟨by decide, rfl, ?_⟩
  exact (duplicate_rejected_after_accept id
      (CogState.mk [(1, 10)] [(1, [])] [(1, [])]
        [(1, some (ChallengeData.mk ['a'] 0 5 true))])
      1 10 2 "Asuna".toList (fun _ => some (Character.mk 7)) 5 (calculate_xp (5 - 0))
      [GameStep.newLetter 1 ['a'] 100 6] 10 3 " ASUNA  ".toList
      (fun _ => some (Character.mk 7)) 105 (by decide) rfl).2
    rfl (by decide) (by decide) (ChallengeData.mk ['a'] 100 6 true)
    rfl rfl

/-! ## C3: the verification gateway fails closed -/

/-- C3: search_anilist_character issues exactly one request with a 10-second
timeout and no retries (its result depends only on the first network
interaction), returns the not-found signal none on timeout, transport error,
or any non-200 response, and when the gateway returns none the pipeline
rejects the submission as not verified without mutating any guild's used-name
set or score dict. -/
theorem verification_fails_closed :
    anilistTimeoutSeconds = 10 ∧
    (∀ net, (search_anilist_character net).2 = 1) ∧
    (∀ net net', net 0 = net' 0 →
      search_anilist_character net = search_anilist_character net') ∧
    (search_anilist_character (fun _ => ApiResponse.timeout)).1 = none ∧
    (search_anilist_character (fun _ => ApiResponse.transportError)).1 = none ∧
    (∀ s b, s ≠ 200 →
      (search_anilist_character (fun _ => ApiResponse.response s b)).1 = none) ∧
    (∀ nfkd st isBot g cid uid content anilist now,
      anilist (pyStrip content) = none →
      (∀ xp : Int, (on_message nfkd st isBot g cid uid content anilist now).outcome
        ≠ Outcome.accepted xp) ∧
      ((on_message nfkd st isBot g cid uid content anilist now).lookupPerformed = true →
        (on_message nfkd st isBot g cid uid content anilist now).outcome
          = Outcome.rejectedNotVerified) ∧
      (∀ g', namesOf (on_message nfkd st isBot g cid uid content anilist now).state g'
          = namesOf st g' ∧
        scoresOf (on_message nfkd st isBot g cid uid content anilist now).state g'
          = scoresOf st g')) := by
  refine ⟨rfl, fun net => rfl, ?_, rfl, rfl, ?_, ?_⟩
  · intro net net' h
    unfold search_anilist_character
    rw [h]
  · intro s b hs
    unfold search_anilist_character handle_anilist_response
    simp [hs]
  · intro nfkd st isBot g cid uid content anilist now hor
    have h := on_message_oracle_none nfkd st isBot g cid uid content anilist now hor
    exact ⟨h.1, h.2.1, fun g' => ⟨(h.2.2 g').1, (h.2.2 g').2.1⟩⟩

/-- C3 witness: a 404 response yields none, and a pipeline run whose oracle
returns none ends in rejectedNotVerified with the used-name set unchanged. -/
theorem verification_fails_closed_witness :
    (search_anilist_character (fun _ => ApiResponse.response 404 none)).1 = none ∧
    (on_message id
        (CogState.mk [(1, 10)] [(1, [])] [(1, [])]
          [(1, some (ChallengeData.mk ['a'] 0 5 true))])
        false 1 10 2 "Asuna".toList (fun _ => none) 5).outcome
      = Outcome.rejectedNotVerified ∧
    namesOf (on_message id
        (CogState.mk [(1, 10)] [(1, [])] [(1, [])]
          [(1, some (ChallengeData.mk ['a'] 0 5 true))])
        false 1 10 2 "Asuna".toList (fun _ => none) 5).state 1
      = namesOf (CogState.mk [(1, 10)] [(1, [])] [(1, [])]
          [(1, some (ChallengeData.mk ['a'] 0 5 true))]) 1 := by
  refine ⟨verification_fails_closed.2.2.2.2.2.1 404 none (by decide), ?_, ?_⟩
  · exact (verification_fails_closed.2.2.2.2.2.2 id
      (CogState.mk [(1, 10)] [(1, [])] [(1, [])]
        [(1, some (ChallengeData.mk ['a'] 0 5 true))])
      false 1 10 2 "Asuna".toList (fun _ => none) 5 rfl).2.1 rfl
  · exact ((verification_fails_closed.2.2.2.2.2.2 id
      (CogState.mk [(1, 10)] [(1, [])] [(1, [])]
        [(1, some (ChallengeData.mk ['a'] 0 5 true))])
      false 1 10 2 "Asuna".toList (fun _ => none) 5 rfl).2.2 1).1

/-! ## C4: cheap checks run before the network call; duplicate before letter -/

/-- C4: the external lookup is performed only when every cheap check passed
(author not a bot, matching game channel, nonempty non-command text, an
active challenge, name not already used, and correct first letter), so a
submission failing any cheap check never pays the network cost; moreover the
duplicate check is evaluated before the wrong-letter check: a duplicate is
rejected as a duplicate with no lookup regardless of its first letter. -/
theorem cheap_checks_before_verification (nfkd : List Char → List Char)
    (st : CogState) (isBot : Bool) (g : GuildId) (cid : ChannelId) (uid : UserId)
    (content : List Char) (anilist : List Char → Option Character) (now : ℚ) :
    ((on_message nfkd st isBot g cid uid content anilist now).lookupPerformed = true →
      isBot = false ∧ dictFind g st.game_channels = some cid ∧
      pyStrip content ≠ [] ∧ isCommandCall (pyStrip content) = false ∧
      ∃ ch, challengeOf st g = some ch ∧ ch.active = true ∧
        normalize_name nfkd (pyStrip content) ∉ namesOf st g ∧
        get_first_letter (pyStrip content) = ch.letter) ∧
    (normalize_name nfkd (pyStrip content) ∈ namesOf st g →
      isBot = false → dictFind g st.game_channels = some cid →
      pyStrip content ≠ [] → isCommandCall (pyStrip content) = false →
      ∀ ch, challengeOf st g = some ch → ch.active = true →
        (on_message nfkd st isBot g cid uid content anilist now).outcome
          = Outcome.rejectedDuplicate ∧
        (on_message nfkd st isBot g cid uid content anilist now).lookupPerformed
          = false) :=
  ⟨on_message_lookup_gates nfkd st isBot g cid uid content anilist now,
   fun hmem =>
    (on_message_dup nfkd st isBot g cid uid content anilist now hmem).2⟩

/-- C4 witness: a duplicate submission whose first letter is even wrong for
the current challenge (letter b) is rejected as a duplicate, with no lookup
performed. -/
theorem cheap_checks_before_verification_witness :
    normalize_name id (pyStrip "Asuna".toList)
      ∈ namesOf (CogState.mk [(1, 10)] [(1, [normalize_name id "Asuna".toList])]
          [(1, [])] [(1, some (ChallengeData.mk ['b'] 0 5 true))]) 1 ∧
    (on_message id
        (CogState.mk [(1, 10)] [(1, [normalize_name id "Asuna".toList])]
          [(1, [])] [(1, some (ChallengeData.mk ['b'] 0 5 true))])
        false 1 10 2 "Asuna".toList (fun _ => some (Character.mk 7)) 5).outcome
      = Outcome.rejectedDuplicate ∧
    (on_message id
        (CogState.mk [(1, 10)] [(1, [normalize_name id "Asuna".toList])]
          [(1, [])] [(1, some (ChallengeData.mk ['b'] 0 5 true))])
        false 1 10 2 "Asuna".toList (fun _ => some (Character.mk 7)) 5).lookupPerformed
      = false := by
  refine ⟨by decide, ?_⟩
  exact (cheap_checks_before_verification id
      (CogState.mk [(1, 10)] [(1, [normalize_name id "Asuna".toList])]
        [(1, [])] [(1, some (ChallengeData.mk ['b'] 0 5 true))])
      false 1 10 2 "Asuna".toList (fun _ => some (Character.mk 7)) 5).2
    (by decide) rfl rfl (by decide) rfl (ChallengeData.mk ['b'] 0 5 true) rfl rfl

theorem on_message_accepts (nfkd : List Char → List Char) (st : CogState)
    (g : GuildId) (cid : ChannelId) (uid : UserId) (content : List Char)
    (anilist : List Char → Option Character) (now : ℚ) (c : Character)
    (ch : ChallengeData)
    (hchan : dictFind g st.game_channels = some cid)
    (hch : challengeOf st g = some ch) (hact : ch.active = true)
    (hne : pyStrip content ≠ []) (hcmd : isCommandCall (pyStrip content) = false)
    (hdup : normalize_name nfkd (pyStrip content) ∉ namesOf st g)
    (hletter : get_first_letter (pyStrip content) = ch.letter)
    (hora : anilist (pyStrip content) = some c) :
    (on_message nfkd st false g cid uid content anilist now).outcome
      = Outcome.accepted (calculate_xp (now - ch.timestamp)) := by
  have hchal : challengeOf st g
      = (dictFind g (initGuild g st).current_letters).getD none :=
    (challengeOf_initGuild g g st).symm
  have hdup' : normalize_name nfkd (pyStrip content)
      ∉ (dictFind g (initGuild g st).used_names).getD [] := by
    rw [← namesOf_initGuild g g st] at hdup
    exact hdup
  unfold on_message
  dsimp only
  repeat' split
  all_goals simp_all

/-! ## C9: administrative reset -/

/-- C9 counterexample: a confirmed reset of a guild with no bound game
channel clears state but re-opens no fresh challenge, so the claim that a
fresh letter challenge is always re-opened after a confirmed reset fails. -/
theorem reset_unbound_counterexample :
    challengeOf (reset_game (CogState.mk [] [] [] []) 1 true true ['a'] 0 5) 1
      = none := by decide

/-- C9 amended: after a confirmed reset of a guild whose bound game channel
the client resolves, the used-name set is empty, the score dict is empty, the
challenge is the freshly opened (active) one, every name passes the duplicate
check, and a verified submission with the new letter is accepted again. -/
theorem reset_clears_and_reopens (st : CogState) (g : GuildId) (cid : ChannelId)
    (letter : List Char) (now : ℚ) (mid : Nat)
    (hbound : dictFind g st.game_channels = some cid) :
    namesOf (reset_game st g true true letter now mid) g = [] ∧
    scoresOf (reset_game st g true true letter now mid) g = [] ∧
    challengeOf (reset_game st g true true letter now mid) g
      = some (ChallengeData.mk letter now mid true) ∧
    (∀ n : List Char, n ∉ namesOf (reset_game st g true true letter now mid) g) ∧
    (∀ nfkd uid content anilist t c,
      get_first_letter (pyStrip content) = letter →
      pyStrip content ≠ [] → isCommandCall (pyStrip content) = false →
      anilist (pyStrip content) = some c →
      (on_message nfkd (reset_game st g true true letter now mid) false g cid uid
          content anilist t).outcome = Outcome.accepted (calculate_xp (t - now))) := by
  have hsend : reset_game st g true true letter now mid
      = send_new_letter
        { st with
          used_names := dictMapAt g (fun _ => ([] : List (List Char))) st.used_names,
          user_scores := dictMapAt g (fun _ => ([] : List (UserId × Int))) st.user_scores,
          current_letters := dictMapAt g (fun _ => (none : Option ChallengeData))
            st.current_letters }
        g letter now mid := by
    unfold reset_game
    rw [if_pos rfl]
    dsimp only
    split
    · rfl
    · rename_i hc
      exfalso
      apply hc
      show ((dictFind g st.game_channels).isSome && true) = true
      rw [hbound]
      rfl
  have h1 : namesOf (reset_game st g true true letter now mid) g = [] := by
    rw [hsend]
    show (dictFind g (dictMapAt g (fun _ => ([] : List (List Char)))
      st.used_names)).getD [] = []
    rw [dictFind_dictMapAt_self]
    cases dictFind g st.used_names <;> rfl
  have h2 : scoresOf (reset_game st g true true letter now mid) g = [] := by
    rw [hsend]
    show (dictFind g (dictMapAt g (fun _ => ([] : List (UserId × Int)))
      st.user_scores)).getD [] = []
    rw [dictFind_dictMapAt_self]
    cases dictFind g st.user_scores <;> rfl
  have h3 : challengeOf (reset_game st g true true letter now mid) g
      = some (ChallengeData.mk letter now mid true) := by
    rw [hsend]
    show (dictFind g (dictSet g (some (ChallengeData.mk letter now mid true))
      (dictMapAt g (fun _ => (none : Option ChallengeData))
        st.current_letters))).getD none = some (ChallengeData.mk letter now mid true)
    rw [dictFind_dictSet_self]
    rfl
  have h4 : ∀ n : List Char, n ∉ namesOf (reset_game st g true true letter now mid) g := by
    intro n
    rw [h1]
    simp
  refine ⟨h1, h2, h3, h4, ?_⟩
  intro nfkd uid content anilist t c hletter hne hcmd hora
  exact on_message_accepts nfkd (reset_game st g true true letter now mid) g cid uid
    content anilist t c (ChallengeData.mk letter now mid true)
    (by rw [hsend]; exact hbound) h3 rfl hne hcmd (h4 _) hletter hora

/-- C9 amended witness: reset of a bound guild with prior state empties the
name set and scores, opens letter a at time 100, and Asuna (used before the
reset) is accepted again 5 seconds later. -/
theorem reset_clears_and_reopens_witness :
    namesOf (reset_game
        (CogState.mk [(1, 10)] [(1, [normalize_name id "Asuna".toList])]
          [(1, [(2, 500)])] [(1, some (ChallengeData.mk ['z'] 0 4 false))])
        1 true true ['a'] 100 6) 1 = [] ∧
    scoresOf (reset_game
        (CogState.mk [(1, 10)] [(1, [normalize_name id "Asuna".toList])]
          [(1, [(2, 500)])] [(1, some (ChallengeData.mk ['z'] 0 4 false))])
        1 true true ['a'] 100 6) 1 = [] ∧
    challengeOf (reset_game
        (CogState.mk [(1, 10)] [(1, [normalize_name id "Asuna".toList])]
          [(1, [(2, 500)])] [(1, some (ChallengeData.mk ['z'] 0 4 false))])
        1 true true ['a'] 100 6) 1 = some (ChallengeData.mk ['a'] 100 6 true) ∧
    (on_message id (reset_game
        (CogState.mk [(1, 10)] [(1, [normalize_name id "Asuna".toList])]
          [(1, [(2, 500)])] [(1, some (ChallengeData.mk ['z'] 0 4 false))])
        1 true true ['a'] 100 6) false 1 10 2 "Asuna".toList
        (fun _ => some (Character.mk 7)) 105).outcome
      = Outcome.accepted (calculate_xp (105 - 100)) := by
  refine ⟨(reset_clears_and_reopens
      (CogState.mk [(1, 10)] [(1, [normalize_name id "Asuna".toList])]
        [(1, [(2, 500)])] [(1, some (ChallengeData.mk ['z'] 0 4 false))])
      1 10 ['a'] 100 6 rfl).1,
    (reset_clears_and_reopens
      (CogState.mk [(1, 10)] [(1, [normalize_name id "Asuna".toList])]
        [(1, [(2, 500)])] [(1, some (ChallengeData.mk ['z'] 0 4 false))])
      1 10 ['a'] 100 6 rfl).2.1,
    (reset_clears_and_reopens
      (CogState.mk [(1, 10)] [(1, [normalize_name id "Asuna".toList])]
        [(1, [(2, 500)])] [(1, some (ChallengeData.mk ['z'] 0 4 false))])
      1 10 ['a'] 100 6 rfl).2.2.1, ?_⟩
  exact (reset_clears_and_reopens
      (CogState.mk [(1, 10)] [(1, [normalize_name id "Asuna".toList])]
        [(1, [(2, 500)])] [(1, some (ChallengeData.mk ['z'] 0 4 false))])
      1 10 ['a'] 100 6 rfl).2.2.2.2 id 2 "Asuna".toList
    (fun _ => some (Character.mk 7)) 105 (Character.mk 7)
    (by decide) (by decide) rfl rfl

/-! ## C10: reset leaves the channel binding (and other guilds) untouched -/

/-- C10: reset_game never changes the game_channels dict, so a bound guild
keeps its configured channel after a reset; and the per-guild records of
every other guild are also untouched. -/
theorem reset_preserves_channel_binding (st : CogState) (g : GuildId)
    (confirmed channelFound : Bool) (letter : List Char) (now : ℚ) (mid : Nat) :
    (reset_game st g confirmed channelFound letter now mid).game_channels
      = st.game_channels ∧
    (∀ g' cid, dictFind g' st.game_channels = some cid →
      dictFind g' (reset_game st g confirmed channelFound letter now mid).game_channels
        = some cid) ∧
    (∀ g', g' ≠ g →
      namesOf (reset_game st g confirmed channelFound letter now mid) g'
        = namesOf st g' ∧
      scoresOf (reset_game st g confirmed channelFound letter now mid) g'
        = scoresOf st g' ∧
      challengeOf (reset_game st g confirmed channelFound letter now mid) g'
        = challengeOf st g') := by
  have hgc : (reset_game st g confirmed channelFound letter now mid).game_channels
      = st.game_channels := by
    unfold reset_game send_new_letter
    dsimp only
    repeat' split
    all_goals rfl
  refine ⟨hgc, fun g' cid h => by rw [hgc]; exact h, ?_⟩
  intro g' hgg
  cases confirmed with
  | false => exact ⟨rfl, rfl, rfl⟩
  | true =>
    unfold reset_game
    rw [if_pos rfl]
    dsimp only
    split
    · refine ⟨?_, ?_, ?_⟩
      · show (dictFind g' (dictMapAt g (fun _ => ([] : List (List Char)))
          st.used_names)).getD [] = namesOf st g'
        rw [dictFind_dictMapAt_ne _ _ hgg]
        rfl
      · show (dictFind g' (dictMapAt g (fun _ => ([] : List (UserId × Int)))
          st.user_scores)).getD [] = scoresOf st g'
        rw [dictFind_dictMapAt_ne _ _ hgg]
        rfl
      · show (dictFind g' (dictSet g (some (ChallengeData.mk letter now mid true))
          (dictMapAt g (fun _ => (none : Option ChallengeData))
            st.current_letters))).getD none = challengeOf st g'
        rw [dictFind_dictSet_ne _ _ hgg, dictFind_dictMapAt_ne _ _ hgg]
        rfl
    · refine ⟨?_, ?_, ?_⟩
      · show (dictFind g' (dictMapAt g (fun _ => ([] : List (List Char)))
          st.used_names)).getD [] = namesOf st g'
        rw [dictFind_dictMapAt_ne _ _ hgg]
        rfl
      · show (dictFind g' (dictMapAt g (fun _ => ([] : List (UserId × Int)))
          st.user_scores)).getD [] = scoresOf st g'
        rw [dictFind_dictMapAt_ne _ _ hgg]
        rfl
      · show (dictFind g' (dictMapAt g (fun _ => (none : Option ChallengeData))
          st.current_letters)).getD none = challengeOf st g'
        rw [dictFind_dictMapAt_ne _ _ hgg]
        rfl

/-- C10 witness: resetting guild 1 leaves both channel bindings and guild 2's
records exactly as they were. -/
theorem reset_preserves_channel_binding_witness :
    (reset_game (CogState.mk [(1, 10), (2, 20)] [(2, [['x']])] [(2, [(9, 100)])]
        [(2, some (ChallengeData.mk ['z'] 0 4 true))])
      1 true true ['a'] 50 6).game_channels = [(1, 10), (2, 20)] ∧
    dictFind 2 (reset_game (CogState.mk [(1, 10), (2, 20)] [(2, [['x']])]
        [(2, [(9, 100)])] [(2, some (ChallengeData.mk ['z'] 0 4 true))])
      1 true true ['a'] 50 6).game_channels = some 20 ∧
    namesOf (reset_game (CogState.mk [(1, 10), (2, 20)] [(2, [['x']])]
        [(2, [(9, 100)])] [(2, some (ChallengeData.mk ['z'] 0 4 true))])
      1 true true ['a'] 50 6) 2 = [['x']] := by
  refine ⟨(reset_preserves_channel_binding
      (CogState.mk [(1, 10), (2, 20)] [(2, [['x']])] [(2, [(9, 100)])]
        [(2, some (ChallengeData.mk ['z'] 0 4 true))]) 1 true true ['a'] 50 6).1,
    (reset_preserves_channel_binding
      (CogState.mk [(1, 10), (2, 20)] [(2, [['x']])] [(2, [(9, 100)])]
        [(2, some (ChallengeData.mk ['z'] 0 4 true))]) 1 true true ['a'] 50 6).2.1
      2 20 rfl, ?_⟩
  exact ((reset_preserves_channel_binding
      (CogState.mk [(1, 10), (2, 20)] [(2, [['x']])] [(2, [(9, 100)])]
        [(2, some (ChallengeData.mk ['z'] 0 4 true))]) 1 true true ['a'] 50 6).2.2
      2 (by decide)).1

/-! ## C7: persistence round trip -/

theorem digitChar_isDigit (d : Nat) : (digitChar d).isDigit = true := by
  unfold digitChar
  split <;> rfl

theorem digitVal_digitChar (d : Nat) (h : d < 10) : digitVal (digitChar d) = d := by
  interval_cases d <;> rfl

theorem parse_foldl (l : List Nat) (acc : Nat) (h : ∀ d ∈ l, d < 10) :
    (l.map digitChar).foldl (fun n c => n * 10 + digitVal c) acc
      = acc * 10 ^ l.length + Nat.ofDigits 10 l.reverse := by
  induction l generalizing acc with
  | nil => simp [Nat.ofDigits]
  | cons d t ih =>
    simp only [List.map_cons, List.foldl_cons]
    rw [digitVal_digitChar d (h d (by simp))]
    rw [ih (acc * 10 + d) (fun x hx => h x (by simp [hx]))]
    rw [List.reverse_cons, Nat.ofDigits_append]
    simp only [List.length_cons, List.length_reverse, Nat.ofDigits_singleton]
    ring

theorem pyInt?_pyStr (n : Nat) : pyInt? (pyStr n) = some n := by
  by_cases hn : n = 0
  · subst hn
    decide
  · unfold pyStr
    rw [if_neg hn]
    have hL : ((Nat.digits 10 n).map digitChar).reverse ≠ [] := by
      simp [Nat.digits_ne_nil_iff_ne_zero.mpr hn]
    have hall : (((Nat.digits 10 n).map digitChar).reverse).all Char.isDigit = true := by
      rw [List.all_eq_true]
      intro c hc
      rw [List.mem_reverse] at hc
      obtain ⟨d, hd, rfl⟩ := List.mem_map.mp hc
      exact digitChar_isDigit d
    have hfold : (((Nat.digits 10 n).map digitChar).reverse).foldl
        (fun n c => n * 10 + digitVal c) 0 = n := by
      rw [← List.map_reverse]
      rw [parse_foldl ((Nat.digits 10 n).reverse) 0 ?_]
      · simp [Nat.ofDigits_digits]
      · intro d hd
        rw [List.mem_reverse] at hd
        exact Nat.digits_lt_base (by norm_num) hd
    show pyInt? (String.mk (((Nat.digits 10 n).map digitChar).reverse)) = some n
    unfold pyInt?
    rw [if_neg hL, if_pos hall, hfold]

theorem map_prod_eta {α β : Type} (l : List (α × β)) :
    l.map (fun p => (p.1, p.2)) = l := by
  induction l with
  | nil => rfl
  | cons p t ih => simp [ih]

theorem decodeKeys_pyStr {α β : Type} (l : List (Nat × α)) (f : Nat × α → β) :
    decodeKeys (l.map (fun p => (pyStr p.1, f p)))
      = some (l.map (fun p => (p.1, f p))) := by
  induction l with
  | nil => rfl
  | cons p t ih =>
    unfold decodeKeys at ih ⊢
    simp only [List.map_cons, List.mapM_cons, pyInt?_pyStr, Option.map_some', ih]
    rfl

theorem foldl_setAdd_append {α : Type} [DecidableEq α] :
    ∀ (l acc : List α), (acc ++ l).Nodup →
      l.foldl (fun s x => setAdd x s) acc = acc ++ l := by
  intro l
  induction l with
  | nil =>
    intro acc h
    simp
  | cons x t ih =>
    intro acc h
    simp only [List.foldl_cons]
    have hx : x ∉ acc := by
      have hd := (List.nodup_append.mp h).2.2
      intro hmem
      exact hd hmem (by simp)
    have hadd : setAdd x acc = acc ++ [x] := by
      unfold setAdd
      rw [if_neg hx]
    rw [hadd, ih (acc ++ [x]) (by simpa using h)]
    simp

theorem pySetOfList_eq_self {α : Type} [DecidableEq α] (l : List α)
    (h : l.Nodup) : pySetOfList l = l := by
  have h2 := foldl_setAdd_append l [] (by simpa using h)
  simpa [pySetOfList] using h2

theorem mapM_decode_scores (us : List (Nat × List (Nat × Int))) :
    (us.map (fun p => (p.1, p.2.map (fun q => (pyStr q.1, q.2))))).mapM
      (fun p => (decodeKeys p.2).map (fun inner => (p.1, inner))) = some us := by
  induction us with
  | nil => rfl
  | cons p t ih =>
    simp only [List.map_cons, List.mapM_cons, decodeKeys_pyStr p.2 (fun q => q.2),
      Option.map_some', map_prod_eta, ih]
    rfl

/-- C7: saving the in-memory game state and loading it back reproduces the
same state: every guild keeps its channel binding, its used-name set (a
duplicate-free set in memory), its integer-keyed score dict, and its
challenge descriptor (letter, timestamp, message id, active flag). -/
theorem save_data_load_data_roundtrip (st : CogState)
    (hnodup : ∀ p ∈ st.used_names, p.2.Nodup) :
    load_data (save_data st) = some st := by
  obtain ⟨gc, un, us, cl⟩ := st
  have hnodup' : ∀ p ∈ un, p.2.Nodup := hnodup
  unfold save_data load_data
  dsimp only
  rw [decodeKeys_pyStr gc (fun p => p.2), decodeKeys_pyStr un (fun p => p.2),
    decodeKeys_pyStr us (fun p => p.2.map (fun q => (pyStr q.1, q.2))),
    decodeKeys_pyStr cl (fun p => p.2)]
  dsimp only
  rw [mapM_decode_scores us]
  have hun : (un.map (fun p => (p.1, p.2))).map (fun p => (p.1, pySetOfList p.2)) = un := by
    rw [map_prod_eta un]
    have h2 : un.map (fun p => (p.1, pySetOfList p.2)) = un.map (fun p => (p.1, p.2)) :=
      List.map_congr_left (fun p hp => by rw [pySetOfList_eq_self p.2 (hnodup' p hp)])
    rw [h2, map_prod_eta un]
  rw [hun, map_prod_eta gc, map_prod_eta cl]

/-! ## C8: leaderboard ordering, rank, page clamping -/

theorem findIdx?_key : ∀ (l : List (UserId × Int)) (uid : UserId) (xp : Int),
    (uid, xp) ∈ l → (l.map Prod.fst).Nodup →
    ∃ i, l.findIdx? (fun p => p.1 == uid) = some i ∧ l[i]? = some (uid, xp) := by
  intro l
  induction l with
  | nil =>
    intro uid xp h _
    cases h
  | cons q t ih =>
    intro uid xp hmem hnd
    rcases List.mem_cons.mp hmem with h | h
    · refine ⟨0, ?_, ?_⟩
      · rw [List.findIdx?_cons, if_pos (by rw [← h]; simp)]
      · simp [← h]
    · have hq : (q.1 == uid) = false := by
        rw [List.map_cons, List.nodup_cons] at hnd
        have huid : uid ∈ t.map Prod.fst := List.mem_map.mpr ⟨(uid, xp), h, rfl⟩
        simp only [beq_eq_false_iff_ne]
        intro he
        exact hnd.1 (he ▸ huid)
      obtain ⟨i, hf, hg⟩ := ih uid xp h
        (by rw [List.map_cons, List.nodup_cons] at hnd; exact hnd.2)
      refine ⟨i + 1, ?_, ?_⟩
      · rw [List.findIdx?_cons, if_neg (by simp [hq]), List.findIdx?_succ, hf]
        rfl
      · simpa using hg

/-- C8: the leaderboard ordering is descending in XP (a permutation of the
score dict), stable so that two users with equal XP keep their dict
(first-seen insertion) order; the rank computed by the stats command is the
1-based position of the user in that ordering; and the requested page number
is clamped to the range from 1 to the total page count (ceiling of player
count over 10). -/
theorem leaderboard_spec :
    (∀ scores : List (UserId × Int),
      (sorted_users scores).Pairwise (fun a b => b.2 ≤ a.2)) ∧
    (∀ scores : List (UserId × Int), List.Perm (sorted_users scores) scores) ∧
    (∀ (scores : List (UserId × Int)) (a b : UserId × Int),
      a.2 = b.2 → List.Sublist [a, b] scores →
        List.Sublist [a, b] (sorted_users scores)) ∧
    (∀ (scores : List (UserId × Int)) (uid : UserId) (xp : Int),
      (scores.map Prod.fst).Nodup → (uid, xp) ∈ scores →
      ∃ i, (sorted_users scores)[i]? = some (uid, xp) ∧
        stats_rank scores uid = i + 1) ∧
    (∀ (page : Int) (n : Nat), 1 ≤ n →
      1 ≤ leaderboard_clamp_page page n ∧
      leaderboard_clamp_page page n ≤ leaderboard_total_pages n) := by
  have htrans : ∀ a b c : UserId × Int, decide (b.2 ≤ a.2) = true →
      decide (c.2 ≤ b.2) = true → decide (c.2 ≤ a.2) = true := by
    intro a b c hab hbc
    simp only [decide_eq_true_eq] at *
    exact le_trans hbc hab
  have htotal : ∀ a b : UserId × Int,
      (decide (b.2 ≤ a.2) || decide (a.2 ≤ b.2)) = true := by
    intro a b
    simp only [Bool.or_eq_true, decide_eq_true_eq]
    exact le_total b.2 a.2
  refine ⟨?_, ?_, ?_, ?_, ?_⟩
  · intro scores
    have hs := List.sorted_mergeSort htrans htotal scores
    exact hs.imp (fun h => by simpa using h)
  · intro scores
    exact List.mergeSort_perm scores _
  · intro scores a b heq hsub
    exact List.pair_sublist_mergeSort htrans htotal (decide_eq_true heq.ge) hsub
  · intro scores uid xp hnd hmem
    have hmem2 : (uid, xp) ∈ sorted_users scores := by
      unfold sorted_users
      rw [List.mem_mergeSort]
      exact hmem
    have hnd2 : ((sorted_users scores).map Prod.fst).Nodup := by
      have hp : List.Perm (sorted_users scores) scores := List.mergeSort_perm scores _
      exact ((hp.map Prod.fst).nodup_iff).mpr hnd
    obtain ⟨i, hf, hg⟩ := findIdx?_key (sorted_users scores) uid xp hmem2 hnd2
    refine ⟨i, hg, ?_⟩
    unfold stats_rank
    rw [hf]
  · intro page n hn
    have htp : 1 ≤ leaderboard_total_pages n := by
      unfold leaderboard_total_pages
      omega
    constructor
    · exact le_max_left 1 _
    · unfold leaderboard_clamp_page
      apply max_le
      · exact_mod_cast htp
      · exact min_le_right _ _

/-- C8 witness: on the score dict 5 mapsto 100, 6 mapsto 200, 7 mapsto 100,
the tied users 5 and 7 keep their insertion order in the sorted view, user 5
is ranked 2, and an out-of-range page request 42 clamps to page 1 of 1. -/
theorem leaderboard_spec_witness :
    List.Sublist [((5 : UserId), (100 : Int)), (7, 100)]
      (sorted_users [(5, 100), (6, 200), (7, 100)]) ∧
    (∃ i, (sorted_users [(5, 100), (6, 200), (7, 100)])[i]? = some (5, 100) ∧
      stats_rank [(5, 100), (6, 200), (7, 100)] 5 = i + 1) ∧
    1 ≤ leaderboard_clamp_page 42 3 ∧
    leaderboard_clamp_page 42 3 ≤ leaderboard_total_pages 3 := by
  refine ⟨leaderboard_spec.2.2.1 [(5, 100), (6, 200), (7, 100)]
      (5, 100) (7, 100) rfl
      (List.Sublist.cons₂ (5, 100)
        (List.Sublist.cons (6, 200) (List.Sublist.refl [(7, 100)]))),
    leaderboard_spec.2.2.2.1 [(5, 100), (6, 200), (7, 100)] 5 100
      (by decide) (by decide),
    (leaderboard_spec.2.2.2.2 42 3 (by decide)).1,
    (leaderboard_spec.2.2.2.2 42 3 (by decide)).2⟩

/-- C7 witness: a concrete state with bindings, two used names, a score and
an active challenge survives the save and load round trip unchanged. -/
theorem save_data_load_data_roundtrip_witness :
    load_data (save_data (CogState.mk [(1, 10)] [(1, [['a'], ['b']])]
        [(1, [(2, 500)])] [(1, some (ChallengeData.mk ['a'] 0 5 true))]))
      = some (CogState.mk [(1, 10)] [(1, [['a'], ['b']])]
        [(1, [(2, 500)])] [(1, some (ChallengeData.mk ['a'] 0 5 true))]) :=
  save_data_load_data_roundtrip
    (CogState.mk [(1, 10)] [(1, [['a'], ['b']])]
      [(1, [(2, 500)])] [(1, some (ChallengeData.mk ['a'] 0 5 true))])
    (by decide)

end TikaBot
